import Mathlib

/-!
Verification of the topic-based pub/sub broker in app/main.py.

The broker keeps two module-level dictionaries:
  topics      : Dict[str, str]            -- topic name to current value
  subscribers : Dict[str, List[WebSocket]] -- topic name to list of live handles

We embed both dictionaries as association lists over String keys (Python
dicts never hold a duplicate key; all reachable states here keep keys
unique because insertion replaces in place). Subscriber handles are
modelled as natural-number identifiers. The transport-layer failure of a
handle's send_text or close call is modelled by Boolean fault functions
passed to the operations: sendFails h (resp. closeFails h) says that the
send (resp. close) on handle h raises.

Each HTTP endpoint becomes a pure function from the pre-state to an
outcome paired with the post-state; an HTTPException raise corresponds to
an error outcome with the state unchanged, and an unhandled exception
escaping the handler is a distinct crash outcome carrying the partially
mutated state.
-/

namespace EvSim

/-- Error outcomes raised by the handlers, by raise site:
notFound is HTTP 404 (missing topic), alreadyExists is the HTTP 404 raised
by createTopic for a name already present, forbidden is the HTTP 400
raised by deleteTopic for the protected topic cp, invalidValue is the
HTTP 422 raised by updateTopic for a cp value outside its enumeration. -/
inductive Err where
  | notFound
  | alreadyExists
  | forbidden
  | invalidValue
deriving DecidableEq

/-- The broker's shared mutable state: the topics dict and the
subscribers dict of app/main.py, as association lists. -/
structure BrokerState where
  topics : List (String × String)
  subscribers : List (String × List Nat)
deriving DecidableEq

/-- Python dict lookup d.get(k) / membership k in d: first entry whose key
matches. -/
def dictLookup {α : Type} (k : String) : List (String × α) → Option α
  | [] => none
  | p :: t => if p.1 = k then some p.2 else dictLookup k t

/-- Python dict assignment d[k] = v: replace the value in place if the key
is present, otherwise append a new entry (insertion order semantics). -/
def dictInsert {α : Type} (k : String) (v : α) : List (String × α) → List (String × α)
  | [] => [(k, v)]
  | p :: t => if p.1 = k then (k, v) :: t else p :: dictInsert k v t

/-- Python dict d.pop(k): drop the entry for key k. -/
def dictPop {α : Type} (k : String) (d : List (String × α)) : List (String × α) :=
  d.filter (fun p => p.1 ≠ k)

/-- The subscriber list the broker iterates for a topic: subscribers[topic]
when present, the empty list when the topic has no registry entry. -/
def subsOf (topic : String) (st : BrokerState) : List Nat :=
  (dictLookup topic st.subscribers).getD []

/-- The value check of updateTopic for the protected topic cp
(main.py line 203): exactly A, B, C, D and off are allowed. -/
def cpAllowed (v : String) : Bool :=
  v == "A" || v == "B" || v == "C" || v == "D" || v == "off"

/-- The module initialisation of main.py line 14: topics = dict(cp="off"),
subscribers = dict(). -/
def initialState : BrokerState :=
  { topics := [("cp", "off")], subscribers := [] }

/-- GET /topics/{topic} (getIndividualTopic, main.py lines 106-126):
404 when the topic is absent, otherwise its value. Never mutates. -/
def getIndividualTopic (topic : String) (st : BrokerState) :
    Except Err String × BrokerState :=
  match dictLookup topic st.topics with
  | none => (Except.error Err.notFound, st)
  | some v => (Except.ok v, st)

/-- POST /topics (createTopic, main.py lines 159-167): raises when the
name is already present (never an upsert), otherwise stores the value. -/
def createTopic (topic value : String) (st : BrokerState) :
    Except Err Unit × BrokerState :=
  match dictLookup topic st.topics with
  | some _ => (Except.error Err.alreadyExists, st)
  | none =>
    (Except.ok (),
     { topics := dictInsert topic value st.topics, subscribers := st.subscribers })

/-- PATCH /topics/{topic} (updateTopic, main.py lines 202-220): the cp
enumeration check comes first, then the existence check; on success the
store is written and then every subscriber in subscribers[topic] is sent
the freshly stored value topics.get(topic), each send wrapped in
try/except so a failing handle is skipped and the loop continues. The ok
payload lists the (handle, message) pairs actually delivered. -/
def updateTopic (sendFails : Nat → Bool) (topic newValue : String)
    (st : BrokerState) : Except Err (List (Nat × String)) × BrokerState :=
  if topic = "cp" ∧ cpAllowed newValue = false then
    (Except.error Err.invalidValue, st)
  else if dictLookup topic st.topics = none then
    (Except.error Err.notFound, st)
  else
    let topics' := dictInsert topic newValue st.topics
    let sent :=
      match dictLookup topic st.subscribers with
      | none => []
      | some subs =>
        subs.filterMap (fun s =>
          if sendFails s then none
          else some (s, (dictLookup topic topics').getD ""))
    (Except.ok sent, { topics := topics', subscribers := st.subscribers })

/-- Outcome of a deleteTopic call: normal completion with the list of
handles successfully closed, an HTTPException raise, or an unhandled
exception escaping from a subscriber's close() (which aborts the sweep
before subscribers.pop runs). -/
inductive DeleteOutcome where
  | ok (closed : List Nat)
  | httpError (e : Err)
  | crash (closed : List Nat)
deriving DecidableEq

/-- The close loop of deleteTopic (main.py lines 256-258): closes the
handles in order with no exception handling, so the first failing close
aborts the loop. Returns ok with all handles closed, or error with the
prefix closed before the raise. -/
def closeAll (closeFails : Nat → Bool) : List Nat → Except (List Nat) (List Nat)
  | [] => Except.ok []
  | h :: t =>
    if closeFails h then Except.error []
    else
      match closeAll closeFails t with
      | Except.ok closed => Except.ok (h :: closed)
      | Except.error closed => Except.error (h :: closed)

/-- DELETE /topics/{topic} (deleteTopic, main.py lines 245-261): cp is
protected (HTTP 400), a missing topic is 404; otherwise the topic is
popped from the store, then, if a registry entry exists, every subscriber
is closed and the registry entry popped. A raise inside the close loop
escapes the handler with the store already popped and the registry entry
still present. -/
def deleteTopic (closeFails : Nat → Bool) (topic : String) (st : BrokerState) :
    DeleteOutcome × BrokerState :=
  if topic = "cp" then (DeleteOutcome.httpError Err.forbidden, st)
  else if dictLookup topic st.topics = none then
    (DeleteOutcome.httpError Err.notFound, st)
  else
    let topics' := dictPop topic st.topics
    match dictLookup topic st.subscribers with
    | none => (DeleteOutcome.ok [], { topics := topics', subscribers := st.subscribers })
    | some subs =>
      match closeAll closeFails subs with
      | Except.ok closed =>
        (DeleteOutcome.ok closed,
         { topics := topics', subscribers := dictPop topic st.subscribers })
      | Except.error closed =>
        (DeleteOutcome.crash closed,
         { topics := topics', subscribers := st.subscribers })

/-- Outcome of the subscribe handshake: rejected means the websocket is
closed without ever entering the registry. -/
inductive SubscribeOutcome where
  | rejected
  | accepted
deriving DecidableEq

/-- The registration part of subscribeTopic (main.py lines 275-283): a
missing topic closes the websocket unregistered; otherwise the handle is
appended to subscribers[topic], the list being created empty first when
absent. -/
def subscribeTopic (topic : String) (h : Nat) (st : BrokerState) :
    SubscribeOutcome × BrokerState :=
  if dictLookup topic st.topics = none then (SubscribeOutcome.rejected, st)
  else
    match dictLookup topic st.subscribers with
    | none =>
      (SubscribeOutcome.accepted,
       { topics := st.topics, subscribers := dictInsert topic [h] st.subscribers })
    | some subs =>
      (SubscribeOutcome.accepted,
       { topics := st.topics, subscribers := dictInsert topic (subs ++ [h]) st.subscribers })

/-- Outcome of the disconnect cleanup: ok, or the ValueError that
list.remove raises when the element is absent. -/
inductive DisconnectOutcome where
  | ok
  | valueError
deriving DecidableEq

/-- The WebSocketDisconnect handler of subscribeTopic (main.py lines
287-289): if subscribers.get(topic) is truthy (present and nonempty) it
calls subscribers[topic].remove(websocket), which removes the first
occurrence, or raises ValueError when the handle is not in the list. An
absent or empty entry is skipped. -/
def disconnect (topic : String) (h : Nat) (st : BrokerState) :
    DisconnectOutcome × BrokerState :=
  match dictLookup topic st.subscribers with
  | none => (DisconnectOutcome.ok, st)
  | some subs =>
    if subs = [] then (DisconnectOutcome.ok, st)
    else if h ∈ subs then
      (DisconnectOutcome.ok,
       { topics := st.topics, subscribers := dictInsert topic (subs.erase h) st.subscribers })
    else (DisconnectOutcome.valueError, st)

/-- The cross-structure invariant of the spec: every topic with a registry
entry also exists in the store. -/
def invariantHolds (st : BrokerState) : Bool :=
  st.subscribers.all (fun p => (dictLookup p.1 st.topics).isSome)

/-! ### Dictionary lemmas -/

theorem dictLookup_insert_self {α : Type} (k : String) (v : α)
    (d : List (String × α)) : dictLookup k (dictInsert k v d) = some v := by
  induction d with
  | nil => simp [dictInsert, dictLookup]
  | cons p t ih =>
    by_cases h : p.1 = k <;> simp [dictInsert, dictLookup, h, ih]

theorem dictLookup_insert_ne {α : Type} {k m : String} (v : α)
    (d : List (String × α)) (hne : m ≠ k) :
    dictLookup m (dictInsert k v d) = dictLookup m d := by
  have hkm : ¬ k = m := fun h => hne h.symm
  induction d with
  | nil => simp [dictInsert, dictLookup, hkm]
  | cons p t ih =>
    by_cases h : p.1 = k
    · have hpm : ¬ p.1 = m := by rw [h]; exact hkm
      simp [dictInsert, dictLookup, h, hpm, hkm]
    · simp [dictInsert, dictLookup, h, ih]

theorem dictLookup_pop_self {α : Type} (k : String) (d : List (String × α)) :
    dictLookup k (dictPop k d) = none := by
  induction d with
  | nil => simp [dictPop, dictLookup]
  | cons p t ih =>
    by_cases h : p.1 = k <;>
      simp_all [dictPop, dictLookup, h, List.filter]

theorem dictLookup_pop_ne {α : Type} {k m : String} (d : List (String × α))
    (hne : m ≠ k) : dictLookup m (dictPop k d) = dictLookup m d := by
  induction d with
  | nil => simp [dictPop, dictLookup]
  | cons p t ih =>
    by_cases h : p.1 = k
    · subst h
      have : p.1 ≠ m := fun h2 => hne (h2.symm)
      simp_all [dictPop, dictLookup, List.filter, this]
    · by_cases h2 : p.1 = m <;> simp_all [dictPop, dictLookup, List.filter, h, h2]

theorem dictLookup_eq_none_iff {α : Type} (k : String) (d : List (String × α)) :
    dictLookup k d = none ↔ ∀ p ∈ d, p.1 ≠ k := by
  induction d with
  | nil => simp [dictLookup]
  | cons p t ih =>
    by_cases h : p.1 = k <;> simp [dictLookup, h, ih]

theorem dictLookup_mem {α : Type} {k : String} {v : α} {d : List (String × α)}
    (h : dictLookup k d = some v) : (k, v) ∈ d := by
  induction d with
  | nil => simp [dictLookup] at h
  | cons p t ih =>
    by_cases hk : p.1 = k
    · simp [dictLookup, hk] at h
      subst hk h
      simp
    · simp [dictLookup, hk] at h
      exact List.mem_cons_of_mem _ (ih h)

theorem mem_dictInsert {α : Type} {k : String} {v : α} {p : String × α}
    {d : List (String × α)} (h : p ∈ dictInsert k v d) : p = (k, v) ∨ p ∈ d := by
  induction d with
  | nil => simp [dictInsert] at h; simp [h]
  | cons q t ih =>
    by_cases hq : q.1 = k
    · simp [dictInsert, hq] at h
      rcases h with h | h
      · exact Or.inl h
      · exact Or.inr (List.mem_cons_of_mem _ h)
    · simp [dictInsert, hq] at h
      rcases h with h | h
      · exact Or.inr (by simp [h])
      · rcases ih h with h2 | h2
        · exact Or.inl h2
        · exact Or.inr (List.mem_cons_of_mem _ h2)

theorem mem_dictPop {α : Type} {k : String} {p : String × α}
    {d : List (String × α)} (h : p ∈ dictPop k d) : p ∈ d ∧ p.1 ≠ k := by
  have := List.of_mem_filter h
  refine ⟨List.mem_of_mem_filter h, ?_⟩
  simpa using this

theorem closeAll_no_fault (l : List Nat) :
    closeAll (fun _ => false) l = Except.ok l := by
  induction l with
  | nil => rfl
  | cons h t ih => simp [closeAll, ih]

theorem invariantHolds_iff (st : BrokerState) :
    invariantHolds st = true ↔
      ∀ p ∈ st.subscribers, (dictLookup p.1 st.topics).isSome = true := by
  simp [invariantHolds, List.all_eq_true]

theorem isSome_lookup_insert {α : Type} (k n : String) (v : α)
    (d : List (String × α)) (h : (dictLookup k d).isSome = true) :
    (dictLookup k (dictInsert n v d)).isSome = true := by
  by_cases hk : k = n
  · subst hk; simp [dictLookup_insert_self]
  · rw [dictLookup_insert_ne v d hk]; exact h

theorem filterMap_some_pair (v : String) (l : List Nat) :
    l.filterMap (fun s => some (s, v)) = l.map (fun s => (s, v)) := by
  induction l with
  | nil => rfl
  | cons a t ih => simp [List.filterMap_cons, ih]

/-- Number of occurrences of an element in a list (the multiplicity a
handle has in a topic's subscriber list). -/
def countOcc {α : Type} [DecidableEq α] (a : α) : List α → Nat
  | [] => 0
  | b :: t => (if b = a then 1 else 0) + countOcc a t

theorem countOcc_eq_zero_of_not_mem {α : Type} [DecidableEq α] {a : α}
    {l : List α} (h : a ∉ l) : countOcc a l = 0 := by
  induction l with
  | nil => rfl
  | cons b t ih =>
    have hb : ¬ b = a := fun hh => h (by simp [hh])
    simp [countOcc, hb, ih (fun hm => h (List.mem_cons_of_mem _ hm))]

theorem countOcc_eq_one_of_nodup_mem {α : Type} [DecidableEq α] {a : α}
    {l : List α} (hnd : l.Nodup) (hm : a ∈ l) : countOcc a l = 1 := by
  induction l with
  | nil => simp at hm
  | cons b t ih =>
    rcases List.mem_cons.1 hm with rfl | hm2
    · have hz : countOcc a t
          = 0 := countOcc_eq_zero_of_not_mem (List.nodup_cons.1 hnd).1
      simp [countOcc, hz]
    · have hb : ¬ b = a := by
        rintro rfl
        exact (List.nodup_cons.1 hnd).1 hm2
      simp [countOcc, hb, ih (List.nodup_cons.1 hnd).2 hm2]

theorem countOcc_append {α : Type} [DecidableEq α] (a : α) (l1 l2 : List α) :
    countOcc a (l1 ++ l2) = countOcc a l1 + countOcc a l2 := by
  induction l1 with
  | nil => simp [countOcc]
  | cons b t ih => simp [countOcc, ih]; omega

theorem countOcc_map_pair (v2 : String) (h : Nat) (l : List Nat) :
    countOcc (h, v2) (l.map (fun s => (s, v2))) = countOcc h l := by
  induction l with
  | nil => rfl
  | cons a t ih =>
    by_cases hah : a = h
    · simp [countOcc, hah, ih]
    · have hpair : ¬ (a, v2) = (h, v2) := by simp [hah]
      simp [countOcc, hah, hpair, ih]

/-- Shape of a successful updateTopic call: the store is written, the
registry left alone, and the delivered messages are the non-failing
subscribers paired with the new value. -/
theorem updateTopic_ok (sendFails : Nat → Bool) (topic v : String)
    (st : BrokerState)
    (hex : dictLookup topic st.topics ≠ none)
    (hval : ¬ (topic = "cp" ∧ cpAllowed v = false)) :
    updateTopic sendFails topic v st
      = (Except.ok ((subsOf topic st).filterMap
           (fun s => if sendFails s then none else some (s, v))),
         { topics := dictInsert topic v st.topics,
           subscribers := st.subscribers }) := by
  cases hsub : dictLookup topic st.subscribers with
  | none => simp [updateTopic, hval, hex, subsOf, hsub]
  | some subs =>
    simp [updateTopic, hval, hex, subsOf, hsub, dictLookup_insert_self]

/-! ### Claim theorems -/

/-- Claim C5: deleting the protected topic cp always fails with Forbidden,
for every state (hence regardless of subscriber state) and every
close-fault environment, leaving the state unchanged; updating cp with a
value outside its enumerated set A, B, C, D, off fails with InvalidValue
before touching the store, leaving the state unchanged. -/
theorem cp_protected_policy (st : BrokerState) (v : String)
    (f g : Nat → Bool) (hv : cpAllowed v = false) :
    deleteTopic g "cp" st = (DeleteOutcome.httpError Err.forbidden, st) ∧
    updateTopic f "cp" v st = (Except.error Err.invalidValue, st) := by
  constructor
  · simp [deleteTopic]
  · simp [updateTopic, hv]

theorem cp_protected_policy_witness :
    deleteTopic (fun _ => false) "cp" initialState
      = (DeleteOutcome.httpError Err.forbidden, initialState) ∧
    updateTopic (fun _ => false) "cp" "Z" initialState
      = (Except.error Err.invalidValue, initialState) :=
  cp_protected_policy initialState "Z" (fun _ => false) (fun _ => false) (by rfl)

/-- Claim C6: createTopic on a name absent from the store succeeds and a
following get returns the new value; createTopic on a name already present
fails with AlreadyExists and leaves the existing value (indeed the whole
state) unchanged — creation is never an upsert. -/
theorem create_fresh_or_conflict (n v : String) (st : BrokerState) :
    (dictLookup n st.topics = none →
      createTopic n v st
        = (Except.ok (),
           { topics := dictInsert n v st.topics, subscribers := st.subscribers }) ∧
      (getIndividualTopic n (createTopic n v st).2).1 = Except.ok v) ∧
    (∀ w, dictLookup n st.topics = some w →
      createTopic n v st = (Except.error Err.alreadyExists, st) ∧
      dictLookup n (createTopic n v st).2.topics = some w) := by
  constructor
  · intro hnone
    have h1 : createTopic n v st
        = (Except.ok (),
           { topics := dictInsert n v st.topics, subscribers := st.subscribers }) := by
      simp [createTopic, hnone]
    refine ⟨h1, ?_⟩
    rw [h1]
    simp [getIndividualTopic, dictLookup_insert_self]
  · intro w hw
    have h1 : createTopic n v st = (Except.error Err.alreadyExists, st) := by
      simp [createTopic, hw]
    exact ⟨h1, by rw [h1]; exact hw⟩

theorem create_fresh_or_conflict_witness :
    (createTopic "temp" "20" initialState).1 = Except.ok () ∧
    (getIndividualTopic "temp" (createTopic "temp" "20" initialState).2).1
      = Except.ok "20" ∧
    createTopic "cp" "x" initialState
      = (Except.error Err.alreadyExists, initialState) := by
  have h1 := (create_fresh_or_conflict "temp" "20" initialState).1 (by rfl)
  have h2 := (create_fresh_or_conflict "cp" "x" initialState).2 "off" (by rfl)
  exact ⟨by rw [h1.1], h1.2, h2.1⟩

/-- Claim C10, frame property of update: a successful updateTopic leaves
the stored value of every other topic unchanged and leaves the subscriber
registry — hence its membership for every topic — unchanged. -/
theorem update_frame (sendFails : Nat → Bool) (topic v : String)
    (st : BrokerState) (sent : List (Nat × String))
    (hok : (updateTopic sendFails topic v st).1 = Except.ok sent) :
    (∀ m, m ≠ topic →
      dictLookup m (updateTopic sendFails topic v st).2.topics
        = dictLookup m st.topics) ∧
    (updateTopic sendFails topic v st).2.subscribers = st.subscribers := by
  by_cases h1 : topic = "cp" ∧ cpAllowed v = false
  · simp [updateTopic, h1] at hok
  · by_cases h2 : dictLookup topic st.topics = none
    · simp [updateTopic, h1, h2] at hok
    · constructor
      · intro m hm
        simp only [updateTopic, h1, h2, if_false, if_neg]
        exact dictLookup_insert_ne v st.topics hm
      · simp [updateTopic, h1, h2]

theorem update_frame_witness :
    dictLookup "x" (updateTopic (fun _ => false) "cp" "A" initialState).2.topics
      = dictLookup "x" initialState.topics ∧
    (updateTopic (fun _ => false) "cp" "A" initialState).2.subscribers
      = initialState.subscribers := by
  have h := update_frame (fun _ => false) "cp" "A" initialState [] (by rfl)
  exact ⟨h.1 "x" (by decide), h.2⟩

/-- Concrete state for the delete close-fault scenario: topic t exists
with value v and has the subscribers 1, 2 and 3. -/
def faultState : BrokerState :=
  { topics := [("cp", "off"), ("t", "v")], subscribers := [("t", [1, 2, 3])] }

/-- Claim C3 (code bug): when handle 2's close raises during deleteTopic's
sweep over subscribers 1, 2, 3 of topic t, the unguarded close loop closes
only handle 1, never closes handle 3, lets the exception escape as the
operation's overall failure, and leaves the registry entry for t in place
(while the store entry is already popped) — the sweep is not
fault-tolerant as the spec requires. -/
theorem delete_close_fault_aborts_sweep :
    deleteTopic (fun s => s == 2) "t" faultState
      = (DeleteOutcome.crash [1],
         { topics := [("cp", "off")], subscribers := [("t", [1, 2, 3])] }) := by
  rfl

/-- Concrete state for the disconnect counterexample: topic t exists and
has the single subscriber 2; handle 1 is not subscribed to it. -/
def absentHandleState : BrokerState :=
  { topics := [("cp", "off"), ("t", "x")], subscribers := [("t", [2])] }

/-- Claim C8, counterexample: removing handle 1 from topic t, whose
subscriber list is the nonempty [2] not containing 1, raises ValueError
instead of being an error-free no-op, so the disconnect-path removal is
not idempotent on every registry state. -/
theorem disconnect_absent_handle_raises :
    disconnect "t" 1 absentHandleState
      = (DisconnectOutcome.valueError, absentHandleState) := by
  rfl

/-- Claim C8, amended: the disconnect-path removal is an error-free no-op
when the topic's registry entry is absent or its list is empty; but when
the list is nonempty and does not contain the handle, list.remove raises
ValueError (the registry itself stays unchanged); when the handle is
present, its first occurrence is removed. -/
theorem disconnect_guarded_cases (topic : String) (h : Nat) (st : BrokerState) :
    (dictLookup topic st.subscribers = none →
      disconnect topic h st = (DisconnectOutcome.ok, st)) ∧
    (dictLookup topic st.subscribers = some [] →
      disconnect topic h st = (DisconnectOutcome.ok, st)) ∧
    (∀ subs, dictLookup topic st.subscribers = some subs → subs ≠ [] → h ∉ subs →
      disconnect topic h st = (DisconnectOutcome.valueError, st)) ∧
    (∀ subs, dictLookup topic st.subscribers = some subs → h ∈ subs →
      disconnect topic h st
        = (DisconnectOutcome.ok,
           { topics := st.topics,
             subscribers := dictInsert topic (subs.erase h) st.subscribers })) := by
  refine ⟨?_, ?_, ?_, ?_⟩
  · intro hn; simp [disconnect, hn]
  · intro he; simp [disconnect, he]
  · intro subs hs hne hmem; simp [disconnect, hs, hne, hmem]
  · intro subs hs hmem
    have hne : ¬ subs = [] := by rintro rfl; simp at hmem
    simp [disconnect, hs, hne, hmem]

theorem disconnect_guarded_cases_witness :
    disconnect "a" 1 absentHandleState = (DisconnectOutcome.ok, absentHandleState) ∧
    disconnect "t" 2 absentHandleState
      = (DisconnectOutcome.ok,
         { topics := absentHandleState.topics,
           subscribers := dictInsert "t" ([2].erase 2) absentHandleState.subscribers }) := by
  exact ⟨(disconnect_guarded_cases "a" 1 absentHandleState).1 (by rfl),
    (disconnect_guarded_cases "t" 2 absentHandleState).2.2.2 [2] (by rfl) (by decide)⟩

/-- Claim C1: for a topic present in the store and a new value accepted by
validation, updateTopic (with no delivery fault) writes the new value to
the store and leaves the registry alone, delivers exactly one notification
carrying the new value to every handle subscribed at the time of the
update (duplicate-free subscriber list), every delivered payload is the
value the store already holds when the send happens, and a get immediately
afterwards returns the new value. -/
theorem update_writes_then_notifies_each_once (topic v2 : String)
    (st : BrokerState)
    (hex : dictLookup topic st.topics ≠ none)
    (hval : ¬ (topic = "cp" ∧ cpAllowed v2 = false))
    (hnd : (subsOf topic st).Nodup) :
    updateTopic (fun _ => false) topic v2 st
      = (Except.ok ((subsOf topic st).map (fun s => (s, v2))),
         { topics := dictInsert topic v2 st.topics,
           subscribers := st.subscribers }) ∧
    (∀ h, h ∈ subsOf topic st →
      countOcc (h, v2) ((subsOf topic st).map (fun s => (s, v2))) = 1) ∧
    (∀ p, p ∈ (subsOf topic st).map (fun s => (s, v2)) →
      dictLookup topic (updateTopic (fun _ => false) topic v2 st).2.topics
        = some p.2) ∧
    (getIndividualTopic topic (updateTopic (fun _ => false) topic v2 st).2).1
      = Except.ok v2 := by
  have heq := updateTopic_ok (fun _ => false) topic v2 st hex hval
  have hmap := filterMap_some_pair v2 (subsOf topic st)
  rw [show (fun s : Nat => if (fun _ : Nat => false) s then none
        else some (s, v2)) = fun s : Nat => some (s, v2) by
      funext s; simp] at heq
  rw [hmap] at heq
  refine ⟨heq, ?_, ?_, ?_⟩
  · intro h hm
    rw [countOcc_map_pair]
    exact countOcc_eq_one_of_nodup_mem hnd hm
  · intro p hp
    rcases List.mem_map.1 hp with ⟨s, _, rfl⟩
    rw [heq]
    simp [dictLookup_insert_self]
  · rw [heq]
    simp [getIndividualTopic, dictLookup_insert_self]

/-- Concrete state for the C1 witness: topic t holds 1 and has the two
distinct subscribers 5 and 6. -/
def notifyState : BrokerState :=
  { topics := [("cp", "off"), ("t", "1")], subscribers := [("t", [5, 6])] }

theorem update_writes_then_notifies_each_once_witness :
    updateTopic (fun _ => false) "t" "2" notifyState
      = (Except.ok ((subsOf "t" notifyState).map (fun s => (s, "2"))),
         { topics := dictInsert "t" "2" notifyState.topics,
           subscribers := notifyState.subscribers }) ∧
    countOcc (5, "2") ((subsOf "t" notifyState).map (fun s => (s, "2"))) = 1 ∧
    (getIndividualTopic "t" (updateTopic (fun _ => false) "t" "2" notifyState).2).1
      = Except.ok "2" := by
  have h := update_writes_then_notifies_each_once "t" "2" notifyState
    (by decide) (by decide) (by decide)
  exact ⟨h.1, h.2.1 5 (by decide), h.2.2.2⟩

/-- Claim C7: during the notify broadcast of a successful update, a send
failure on one handle is caught: the update still succeeds, every
subscriber whose send does not fail receives the notification, and the
registry — including the failing handle's registration — is unchanged. -/
theorem notify_send_fault_tolerant (sendFails : Nat → Bool)
    (topic v : String) (st : BrokerState)
    (hex : dictLookup topic st.topics ≠ none)
    (hval : ¬ (topic = "cp" ∧ cpAllowed v = false)) :
    updateTopic sendFails topic v st
      = (Except.ok ((subsOf topic st).filterMap
           (fun s => if sendFails s then none else some (s, v))),
         { topics := dictInsert topic v st.topics,
           subscribers := st.subscribers }) ∧
    (∀ h, h ∈ subsOf topic st → sendFails h = false →
      (h, v) ∈ (subsOf topic st).filterMap
        (fun s => if sendFails s then none else some (s, v))) := by
  refine ⟨updateTopic_ok sendFails topic v st hex hval, ?_⟩
  intro h hm hf
  exact List.mem_filterMap.2 ⟨h, hm, by simp [hf]⟩

/-- Concrete state for the C7 witness: topic t has three subscribers and
handle 2's send fails. -/
def broadcastState : BrokerState :=
  { topics := [("cp", "off"), ("t", "x")], subscribers := [("t", [1, 2, 3])] }

theorem notify_send_fault_tolerant_witness :
    updateTopic (fun s => s == 2) "t" "y" broadcastState
      = (Except.ok ((subsOf "t" broadcastState).filterMap
           (fun s => if s == 2 then none else some (s, "y"))),
         { topics := dictInsert "t" "y" broadcastState.topics,
           subscribers := broadcastState.subscribers }) ∧
    (1, "y") ∈ (subsOf "t" broadcastState).filterMap
        (fun s => if s == 2 then none else some (s, "y")) ∧
    (3, "y") ∈ (subsOf "t" broadcastState).filterMap
        (fun s => if s == 2 then none else some (s, "y")) := by
  have h := notify_send_fault_tolerant (fun s => s == 2) "t" "y"
    broadcastState (by decide) (by decide)
  exact ⟨h.1, h.2 1 (by decide) (by rfl), h.2 3 (by decide) (by rfl)⟩

/-- Claim C9: the registry keeps a list, not a set — subscribing a handle
that is already registered once for an existing topic is accepted and
appends a second occurrence, and one subsequent successful update then
delivers the notification to that handle exactly twice. -/
theorem resubscribe_duplicates_delivery (topic v : String) (h : Nat)
    (st : BrokerState)
    (hex : dictLookup topic st.topics ≠ none)
    (hval : ¬ (topic = "cp" ∧ cpAllowed v = false))
    (hone : countOcc h (subsOf topic st) = 1) :
    (subscribeTopic topic h st).1 = SubscribeOutcome.accepted ∧
    countOcc h (subsOf topic (subscribeTopic topic h st).2) = 2 ∧
    (updateTopic (fun _ => false) topic v (subscribeTopic topic h st).2).1
      = Except.ok ((subsOf topic (subscribeTopic topic h st).2).map
          (fun s => (s, v))) ∧
    countOcc (h, v) ((subsOf topic (subscribeTopic topic h st).2).map
        (fun s => (s, v))) = 2 := by
  cases hsub : dictLookup topic st.subscribers with
  | none => simp [subsOf, hsub, countOcc] at hone
  | some subs =>
    have hones : countOcc h subs = 1 := by simpa [subsOf, hsub] using hone
    have hsubeq : subscribeTopic topic h st
        = (SubscribeOutcome.accepted,
           { topics := st.topics,
             subscribers := dictInsert topic (subs ++ [h]) st.subscribers }) := by
      simp [subscribeTopic, hex, hsub]
    have hsubs1 : subsOf topic (subscribeTopic topic h st).2 = subs ++ [h] := by
      rw [hsubeq]
      simp [subsOf, dictLookup_insert_self]
    have hcount : countOcc h (subs ++ [h]) = 2 := by
      rw [countOcc_append, hones]
      simp [countOcc]
    have hex1 : dictLookup topic (subscribeTopic topic h st).2.topics ≠ none := by
      rw [hsubeq]
      exact hex
    have hupd := updateTopic_ok (fun _ => false) topic v
      (subscribeTopic topic h st).2 hex1 hval
    rw [show (fun s : Nat => if (fun _ : Nat => false) s then none
          else some (s, v)) = fun s : Nat => some (s, v) by
        funext s; simp] at hupd
    rw [filterMap_some_pair] at hupd
    refine ⟨by rw [hsubeq], by rw [hsubs1]; exact hcount, by rw [hupd], ?_⟩
    rw [hsubs1, countOcc_map_pair]
    exact hcount

/-- Concrete state for the C9 witness: topic t exists and handle 7 is
subscribed to it exactly once. -/
def singleSubState : BrokerState :=
  { topics := [("cp", "off"), ("t", "x")], subscribers := [("t", [7])] }

theorem resubscribe_duplicates_delivery_witness :
    (subscribeTopic "t" 7 singleSubState).1 = SubscribeOutcome.accepted ∧
    countOcc 7 (subsOf "t" (subscribeTopic "t" 7 singleSubState).2) = 2 ∧
    countOcc (7, "y") ((subsOf "t" (subscribeTopic "t" 7 singleSubState).2).map
        (fun s => (s, "y"))) = 2 := by
  have h := resubscribe_duplicates_delivery "t" "y" 7 singleSubState
    (by decide) (by decide) (by decide)
  exact ⟨h.1, h.2.1, h.2.2.2⟩

/-- Claim C2: deleting an existing, unprotected topic (with no close
fault) succeeds, issues a close to exactly the handles subscribed at the
time, removes the topic from the store and its entry from the registry
(succeeding whether or not a registry entry existed, since the state is
arbitrary), and afterwards get, update and subscribe on that name all fail
for a missing topic. -/
theorem delete_existing_topic (topic : String) (st : BrokerState)
    (hcp : topic ≠ "cp")
    (hex : dictLookup topic st.topics ≠ none) :
    (deleteTopic (fun _ => false) topic st).1
      = DeleteOutcome.ok (subsOf topic st) ∧
    dictLookup topic (deleteTopic (fun _ => false) topic st).2.topics = none ∧
    dictLookup topic (deleteTopic (fun _ => false) topic st).2.subscribers
      = none ∧
    (getIndividualTopic topic (deleteTopic (fun _ => false) topic st).2).1
      = Except.error Err.notFound ∧
    (∀ f v, (updateTopic f topic v (deleteTopic (fun _ => false) topic st).2).1
      = Except.error Err.notFound) ∧
    (∀ h, (subscribeTopic topic h (deleteTopic (fun _ => false) topic st).2).1
      = SubscribeOutcome.rejected) := by
  have key : (deleteTopic (fun _ => false) topic st).1
        = DeleteOutcome.ok (subsOf topic st) ∧
      (deleteTopic (fun _ => false) topic st).2.topics = dictPop topic st.topics ∧
      dictLookup topic (deleteTopic (fun _ => false) topic st).2.subscribers
        = none := by
    cases hsub : dictLookup topic st.subscribers with
    | none => simp [deleteTopic, hcp, hex, hsub, subsOf]
    | some subs =>
      simp [deleteTopic, hcp, hex, hsub, subsOf, closeAll_no_fault,
        dictLookup_pop_self]
  obtain ⟨k1, k2, k3⟩ := key
  have ht : dictLookup topic (deleteTopic (fun _ => false) topic st).2.topics
      = none := by
    rw [k2]; exact dictLookup_pop_self topic st.topics
  refine ⟨k1, ht, k3, ?_, ?_, ?_⟩
  · simp [getIndividualTopic, ht]
  · intro f v
    have hnc : ¬ (topic = "cp" ∧ cpAllowed v = false) := fun hh => hcp hh.1
    simp [updateTopic, hnc, ht]
  · intro h
    simp [subscribeTopic, ht]

/-- Concrete state for the C2 and C4 witnesses: topic t exists with
subscribers 1 and 2, and the cross-structure invariant holds. -/
def deleteState : BrokerState :=
  { topics := [("cp", "off"), ("t", "x")], subscribers := [("t", [1, 2])] }

theorem delete_existing_topic_witness :
    (deleteTopic (fun _ => false) "t" deleteState).1 = DeleteOutcome.ok [1, 2] ∧
    dictLookup "t" (deleteTopic (fun _ => false) "t" deleteState).2.topics
      = none ∧
    dictLookup "t" (deleteTopic (fun _ => false) "t" deleteState).2.subscribers
      = none ∧
    (getIndividualTopic "t" (deleteTopic (fun _ => false) "t" deleteState).2).1
      = Except.error Err.notFound ∧
    (updateTopic (fun _ => false) "t" "z"
      (deleteTopic (fun _ => false) "t" deleteState).2).1
      = Except.error Err.notFound ∧
    (subscribeTopic "t" 9 (deleteTopic (fun _ => false) "t" deleteState).2).1
      = SubscribeOutcome.rejected := by
  have h := delete_existing_topic "t" deleteState (by decide) (by decide)
  exact ⟨h.1, h.2.1, h.2.2.1, h.2.2.2.1, h.2.2.2.2.1 (fun _ => false) "z",
    h.2.2.2.2.2 9⟩

/-- Claim C4: the cross-structure invariant — every topic with a registry
entry also exists in the store — is preserved by every operation that
returns normally: create, update, delete (in any close-fault environment,
when it completes with ok the store and registry entries are removed
together), subscribe, and the disconnect-path removal. -/
theorem registry_never_outlives_store (st : BrokerState)
    (hinv : invariantHolds st = true) :
    (∀ n v, invariantHolds (createTopic n v st).2 = true) ∧
    (∀ f n v, invariantHolds (updateTopic f n v st).2 = true) ∧
    (∀ g n closed, (deleteTopic g n st).1 = DeleteOutcome.ok closed →
      invariantHolds (deleteTopic g n st).2 = true) ∧
    (∀ n h, invariantHolds (subscribeTopic n h st).2 = true) ∧
    (∀ n h, invariantHolds (disconnect n h st).2 = true) := by
  have hmem : ∀ p ∈ st.subscribers, (dictLookup p.1 st.topics).isSome = true :=
    (invariantHolds_iff st).1 hinv
  refine ⟨?_, ?_, ?_, ?_, ?_⟩
  · intro n v
    cases hl : dictLookup n st.topics with
    | some w => simp [createTopic, hl, hinv]
    | none =>
      have hpost : (createTopic n v st).2
          = { topics := dictInsert n v st.topics,
              subscribers := st.subscribers } := by
        simp [createTopic, hl]
      rw [hpost]
      exact (invariantHolds_iff _).2
        (fun p hp => isSome_lookup_insert _ _ _ _ (hmem p hp))
  · intro f n v
    by_cases h1 : n = "cp" ∧ cpAllowed v = false
    · simp [updateTopic, h1, hinv]
    · by_cases h2 : dictLookup n st.topics = none
      · simp [updateTopic, h1, h2, hinv]
      · have hpost : (updateTopic f n v st).2
            = { topics := dictInsert n v st.topics,
                subscribers := st.subscribers } := by
          simp [updateTopic, h1, h2]
        rw [hpost]
        exact (invariantHolds_iff _).2
          (fun p hp => isSome_lookup_insert _ _ _ _ (hmem p hp))
  · intro g n closed hok
    by_cases h1 : n = "cp"
    · simp [deleteTopic, h1] at hok
    · by_cases h2 : dictLookup n st.topics = none
      · simp [deleteTopic, h1, h2] at hok
      · cases hsub : dictLookup n st.subscribers with
        | none =>
          have hpost : (deleteTopic g n st).2
              = { topics := dictPop n st.topics,
                  subscribers := st.subscribers } := by
            simp [deleteTopic, h1, h2, hsub]
          rw [hpost]
          refine (invariantHolds_iff _).2 (fun p hp => ?_)
          have hne : p.1 ≠ n :=
            (dictLookup_eq_none_iff n st.subscribers).1 hsub p hp
          rw [dictLookup_pop_ne st.topics hne]
          exact hmem p hp
        | some subs =>
          cases hca : closeAll g subs with
          | error c => simp [deleteTopic, h1, h2, hsub, hca] at hok
          | ok c =>
            have hpost : (deleteTopic g n st).2
                = { topics := dictPop n st.topics,
                    subscribers := dictPop n st.subscribers } := by
              simp [deleteTopic, h1, h2, hsub, hca]
            rw [hpost]
            refine (invariantHolds_iff _).2 (fun p hp => ?_)
            obtain ⟨hp2, hne⟩ := mem_dictPop hp
            rw [dictLookup_pop_ne st.topics hne]
            exact hmem p hp2
  · intro n h
    cases hl : dictLookup n st.topics with
    | none => simp [subscribeTopic, hl, hinv]
    | some w =>
      cases hsub : dictLookup n st.subscribers with
      | none =>
        have hpost : (subscribeTopic n h st).2
            = { topics := st.topics,
                subscribers := dictInsert n [h] st.subscribers } := by
          simp [subscribeTopic, hl, hsub]
        rw [hpost]
        refine (invariantHolds_iff _).2 (fun p hp => ?_)
        rcases mem_dictInsert hp with hp1 | hp1
        · subst hp1; simp [hl]
        · exact hmem p hp1
      | some subs =>
        have hpost : (subscribeTopic n h st).2
            = { topics := st.topics,
                subscribers := dictInsert n (subs ++ [h]) st.subscribers } := by
          simp [subscribeTopic, hl, hsub]
        rw [hpost]
        refine (invariantHolds_iff _).2 (fun p hp => ?_)
        rcases mem_dictInsert hp with hp1 | hp1
        · subst hp1; simp [hl]
        · exact hmem p hp1
  · intro n h
    cases hsub : dictLookup n st.subscribers with
    | none => simp [disconnect, hsub, hinv]
    | some subs =>
      by_cases hse : subs = []
      · simp [disconnect, hsub, hse, hinv]
      · by_cases hhm : h ∈ subs
        · have hpost : (disconnect n h st).2
              = { topics := st.topics,
                  subscribers := dictInsert n (subs.erase h) st.subscribers } := by
            simp [disconnect, hsub, hse, hhm]
          rw [hpost]
          refine (invariantHolds_iff _).2 (fun p hp => ?_)
          rcases mem_dictInsert hp with hp1 | hp1
          · subst hp1
            simpa using hmem (n, subs) (dictLookup_mem hsub)
          · exact hmem p hp1
        · simp [disconnect, hsub, hse, hhm, hinv]

theorem registry_never_outlives_store_witness :
    invariantHolds (deleteTopic (fun _ => false) "t" deleteState).2 = true ∧
    invariantHolds (subscribeTopic "cp" 7 deleteState).2 = true := by
  have h := registry_never_outlives_store deleteState (by rfl)
  exact ⟨h.2.2.1 (fun _ => false) "t" [1, 2] (by rfl), h.2.2.2.1 "cp" 7⟩

end EvSim
